import Mathlib

/-!
Verification development for the `tracing-forest` pipeline
(`src/tracing-forest/src/builder.rs` and
`src/tracing-forest/src/processor/mod.rs`).

The embedding models the `Processor` trait and its combinators, the
unbounded-channel transport, the Process-mode consumer task (as a
small-step state machine over interleavings of enqueue, shutdown,
receive and drain), and the Capture-mode collection loop.
-/

namespace TracingForest

/-- Modelled from the spec: `crate::tree::Tree` is not under `src/`.
The spec treats a tree as an opaque, immutable value whose internal
shape is out of scope, so it is abstracted as a labelled token. -/
structure Tree where
  id : Nat
deriving Repr, DecidableEq

/-- Modelled from the spec: the cause field of a `ProcessReport`
(`processor/error.rs` is not under `src/`): why delivery failed,
e.g. transport closed (`SendError`) or an I/O failure. -/
inductive Cause where
  | sendError
  | ioError
deriving Repr, DecidableEq

/-- Modelled from the spec: `ProcessReport` (`processor/error.rs` is not
under `src/`): the failure outcome of a processing attempt, carrying
the original `Tree` back when recoverable (`none` in the one permitted
lossy case) together with a cause. -/
structure ProcessReport where
  tree : Option Tree
  cause : Cause
deriving Repr, DecidableEq

/-- Embedding of `ProcessReport::new(tree, cause)`. -/
def ProcessReport.new (tree : Option Tree) (cause : Cause) : ProcessReport :=
  ⟨tree, cause⟩

/-- Embedding of the `Processor` trait: consume one `Tree`, report
success or a `ProcessReport`. -/
class Processor (α : Type) where
  process : α → Tree → Except ProcessReport Unit

/-- Modelled from the spec: `ProcessReport::try_fallback`
(`processor/error.rs` is not under `src/`): if the report carries the
tree back, process it with the fallback and return that outcome; if the
report carries no tree, propagate the report unchanged without
invoking the fallback. -/
def ProcessReport.try_fallback {F : Type} [Processor F]
    (err : ProcessReport) (fallback : F) : Except ProcessReport Unit :=
  match err.tree with
  | some tree => Processor.process fallback tree
  | none => Except.error err

/-- Embedding of `WithFallback { primary, fallback }`. -/
structure WithFallback (P F : Type) where
  primary : P
  fallback : F

/-- Embedding of `Processor::with_fallback`. -/
def Processor.with_fallback {P F : Type} [Processor P] [Processor F]
    (p : P) (fallback : F) : WithFallback P F :=
  ⟨p, fallback⟩

/-- Embedding of `Result::or_else` as used in `WithFallback::process`:
keep a success unchanged, apply the closure to a failure. -/
def orElseWith (r : Except ProcessReport Unit)
    (g : ProcessReport → Except ProcessReport Unit) : Except ProcessReport Unit :=
  match r with
  | Except.ok a => Except.ok a
  | Except.error e => g e

/-- Embedding of `impl Processor for WithFallback`:
`self.primary.process(tree).or_else(|err| err.try_fallback(&self.fallback))`. -/
instance {P F : Type} [Processor P] [Processor F] : Processor (WithFallback P F) where
  process w tree :=
    orElseWith (Processor.process w.primary tree)
      (fun err => err.try_fallback w.fallback)

/-- Embedding of `Sink`, the discard processor. -/
structure Sink

/-- Embedding of `impl Processor for Sink`: always `Ok(())`. -/
instance : Processor Sink where
  process _ _ := Except.ok ()

/-- Embedding of Rust's `Box<P>` as an owning wrapper. -/
structure Box (α : Type) where
  val : α

/-- Embedding of Rust's `Arc<P>` as a shared wrapper. -/
structure Arc (α : Type) where
  val : α

/-- Embedding of `impl Processor for Box<P>`: `self.as_ref().process(tree)`. -/
instance {P : Type} [Processor P] : Processor (Box P) where
  process b tree := Processor.process b.val tree

/-- Embedding of `impl Processor for Arc<P>`: `self.as_ref().process(tree)`. -/
instance {P : Type} [Processor P] : Processor (Arc P) where
  process a tree := Processor.process a.val tree

/-- A function-backed `Processor` instance, playing the role of a
user-defined processor implementation when instantiating the trait on
concrete examples. -/
structure FnProcessor where
  run : Tree → Except ProcessReport Unit

instance : Processor FnProcessor where
  process p tree := p.run tree

/-- Modelled from the spec: the state of tokio's unbounded mpsc channel
(the transport): a FIFO buffer of trees plus whether the receiving half
has been closed. -/
structure Channel where
  buffer : List Tree
  closed : Bool
deriving Repr, DecidableEq

/-- A fresh channel, as created by `mpsc::unbounded_channel()`. -/
def Channel.new : Channel := ⟨[], false⟩

/-- Modelled from the spec: `UnboundedSender::send` — never blocks,
appends to the buffer when the receiving half is open, and returns the
tree back (`SendError(tree)`) when the receiving half has been closed. -/
def Channel.send (ch : Channel) (tree : Tree) : Channel × Option Tree :=
  if ch.closed then (ch, some tree)
  else ({ ch with buffer := ch.buffer ++ [tree] }, none)

/-- Embedding of `receiver.close()`. -/
def Channel.close (ch : Channel) : Channel := { ch with closed := true }

/-- Embedding of `impl Processor for UnboundedSender<Tree>`:
`self.send(tree).map_err(|err| ProcessReport::new(Some(err.0), SendError.into()))`.
The channel state is threaded explicitly. -/
def UnboundedSender.process (ch : Channel) (tree : Tree) :
    Channel × Except ProcessReport Unit :=
  match Channel.send ch tree with
  | (ch2, none) => (ch2, Except.ok ())
  | (ch2, some t) =>
      (ch2, Except.error (ProcessReport.new (some t) Cause.sendError))

/-- Embedding of `TreeSender`, the newtype around the transport's
sending half used as the subscriber's producer-side processor. -/
structure TreeSender

/-- Embedding of `impl Processor for TreeSender`: `self.0.process(tree)`
delegates to the `UnboundedSender` impl. -/
def TreeSender.process (_s : TreeSender) (ch : Channel) (tree : Tree) :
    Channel × Except ProcessReport Unit :=
  UnboundedSender.process ch tree

/-- Embedding of producing trees during `f.await`: each completed tree
is submitted through the transport's sending half in program order. -/
def Channel.sendAll (ch : Channel) : List Tree → Channel
  | [] => ch
  | t :: rest => Channel.sendAll (Channel.send ch t).1 rest

/-- Embedding of the Capture-mode collection loop
`while let Some(tree) = self.receiver.recv().await { logs.push(tree) }`:
after `close`, `recv` yields the buffered trees front to back and then
`None`. -/
def drainLoop : List Tree → List Tree
  | [] => []
  | t :: rest => t :: drainLoop rest

/-- Draining a closed receiver collects its buffer in FIFO order. -/
def Channel.drain (ch : Channel) : List Tree := drainLoop ch.buffer

/-- Embedding of the core of Capture-mode `on` after setup: run the
scope (which sends its produced trees into the fresh transport), close
the receiving half, and drain it into the returned list. -/
def captureCollect (produced : List Tree) : List Tree :=
  Channel.drain (Channel.close (Channel.sendAll Channel.new produced))

/-- Embedding of the Process-mode consumer loop body over a list of
received trees: each tree is fed to the processor; on failure the
failure hook (`fail::processing_error`, modelled from the spec as
recording the report — the `fail` module is not under `src/`) is
invoked via `unwrap_or_else` and the loop continues unconditionally.
Returns the per-tree log and the hook invocations. -/
def consumeLoop (proc : Tree → Except ProcessReport Unit) :
    List Tree → List (Tree × Except ProcessReport Unit) × List ProcessReport
  | [] => ([], [])
  | t :: rest =>
    let r := proc t
    let hook := match r with
      | Except.ok _ => []
      | Except.error e => [e]
    let next := consumeLoop proc rest
    ((t, r) :: next.1, hook ++ next.2)

/-- Phase of the Process-mode pipeline: the select loop (`running`),
the post-shutdown drain loop (`draining`), and task exit (`done`). -/
inductive Phase where
  | running
  | draining
  | done
deriving Repr, DecidableEq

/-- State of the Process-mode pipeline of `SubscriberBuilder::<S, Process<P>>::on`:
the channel buffer and closed flag, whether the oneshot shutdown signal
has been sent, the consumer's per-tree log of processing outcomes, and
the ghost list `sentOk` of trees whose enqueue returned success. -/
structure PState where
  phase : Phase
  buffer : List Tree
  closed : Bool
  shutdownSent : Bool
  log : List (Tree × Except ProcessReport Unit)
  sentOk : List Tree
deriving Repr

/-- The initial state: select loop running, empty channel, receiver
open, shutdown not yet signalled, nothing processed. -/
def PState.init : PState := ⟨Phase.running, [], false, false, [], []⟩

/-- The effect of a successful enqueue (`UnboundedSender::send` with the
receiver open): the tree is appended to the buffer and recorded as
successfully sent. -/
def PState.enqueue (s : PState) (t : Tree) : PState :=
  { s with buffer := s.buffer ++ [t], sentOk := s.sentOk ++ [t] }

/-- Small-step semantics of the Process-mode pipeline, embedding the
spawned consumer task of `SubscriberBuilder::<S, Process<P>>::on`
together with the producers and the foreground shutdown send:
* `enqueue`: a producer sends a tree; it succeeds while the receiver is open;
* `sendShutdown`: the foreground sends the oneshot shutdown signal after
  the monitored future completes;
* `recvTree`: the select loop receives the next buffered tree and
  processes it, continuing regardless of the outcome;
* `recvShutdown`: the select loop observes the shutdown signal, closes
  the receiver and breaks into the drain loop;
* `drainTree`: the drain loop processes the next remaining buffered tree;
* `finish`: with the buffer empty and the receiver closed, `recv`
  returns `None` and the task exits (the foreground then joins it). -/
inductive Step (proc : Tree → Except ProcessReport Unit) : PState → PState → Prop where
  | enqueue (s : PState) (t : Tree) (h : s.closed = false) :
      Step proc s (s.enqueue t)
  | sendShutdown (s : PState) (h : s.shutdownSent = false) :
      Step proc s { s with shutdownSent := true }
  | recvTree (s : PState) (t : Tree) (rest : List Tree)
      (hph : s.phase = Phase.running) (hb : s.buffer = t :: rest) :
      Step proc s { s with buffer := rest, log := s.log ++ [(t, proc t)] }
  | recvShutdown (s : PState) (hph : s.phase = Phase.running)
      (hs : s.shutdownSent = true) :
      Step proc s { s with closed := true, phase := Phase.draining }
  | drainTree (s : PState) (t : Tree) (rest : List Tree)
      (hph : s.phase = Phase.draining) (hb : s.buffer = t :: rest) :
      Step proc s { s with buffer := rest, log := s.log ++ [(t, proc t)] }
  | finish (s : PState) (hph : s.phase = Phase.draining) (hb : s.buffer = []) :
      Step proc s { s with phase := Phase.done }

/-- Reachability through the pipeline's small-step semantics. -/
def Reaches (proc : Tree → Except ProcessReport Unit) : PState → PState → Prop :=
  Relation.ReflTransGen (Step proc)

/-- Modelled from the spec: the panic raised by the `.expect` on
`tracing::subscriber::set_global_default` when a global default
subscriber has already been set. -/
inductive SetupPanic where
  | globalDefaultAlreadySet
deriving Repr, DecidableEq

/-- Modelled from the spec: `tracing::subscriber::set_global_default`
(the `tracing` crate is external): errors exactly when a global default
has already been set. -/
def setGlobalDefault (alreadySet : Bool) : Except Unit Unit :=
  if alreadySet then Except.error () else Except.ok ()

/-- Embedding of the setup portion of both `on` entry points: when
`is_global` is set, `set_global_default(self.subscriber).expect(...)`
panics if a global default was already set — before the future runs and
before any tree is produced or processed; otherwise a scoped default
guard is installed and setup succeeds. -/
def subscriberSetup (isGlobal alreadySet : Bool) : Except SetupPanic Unit :=
  if isGlobal then
    match setGlobalDefault alreadySet with
    | Except.error _ => Except.error SetupPanic.globalDefaultAlreadySet
    | Except.ok _ => Except.ok ()
  else Except.ok ()

/-- Embedding of Process-mode `on` collapsed to its sequential
observable behaviour: setup, then the future produces its trees and the
consumer task processes every one of them (select loop followed by
drain). A setup panic aborts before any tree is produced or processed. -/
def processModeOn (proc : Tree → Except ProcessReport Unit)
    (isGlobal alreadySet : Bool) (produced : List Tree) :
    Except SetupPanic (List (Tree × Except ProcessReport Unit) × List ProcessReport) :=
  match subscriberSetup isGlobal alreadySet with
  | Except.error e => Except.error e
  | Except.ok _ => Except.ok (consumeLoop proc produced)

/-- Embedding of Capture-mode `on`: setup, then run the scope, close the
receiver and drain it into the returned `Vec<Tree>`. -/
def captureModeOn (isGlobal alreadySet : Bool) (produced : List Tree) :
    Except SetupPanic (List Tree) :=
  match subscriberSetup isGlobal alreadySet with
  | Except.error e => Except.error e
  | Except.ok _ => Except.ok (captureCollect produced)

/-- Modelled from the spec: the tag/routing policy (`crate::tag` is not
under `src/`); `NoTag::from_field` is the "no tag" default. -/
inductive TagParser where
  | noTagFromField
deriving Repr, DecidableEq

/-- Modelled from the spec: the formatter (`crate::formatter` is not
under `src/`); `Pretty::new()` is the pretty formatter. -/
inductive Formatter where
  | pretty
deriving Repr, DecidableEq

/-- Modelled from the spec: the writer target of a printer
(`crate::printer` is not under `src/`). -/
inductive MakeWriter where
  | stdout
  | stderr
deriving Repr, DecidableEq

/-- Modelled from the spec: `Printer` (`crate::printer` is not under
`src/`): a consumer-side processor rendering trees with a formatter to
a writer. -/
structure Printer where
  formatter : Formatter
  make_writer : MakeWriter
deriving Repr, DecidableEq

/-- Embedding of `Printer::new(formatter, make_writer)`. -/
def Printer.new (formatter : Formatter) (make_writer : MakeWriter) : Printer :=
  ⟨formatter, make_writer⟩

/-- Embedding of the `Process<P>` marker wrapping the consumer-side
processor. -/
structure Process (P : Type) where
  proc : P

/-- Embedding of the `Capture(())` marker: no consumer-side processor. -/
structure Capture where
  unit : Unit

/-- Embedding of `LayerBuilder`. -/
structure LayerBuilder (T R : Type) where
  sender_processor : T
  receiver_processor : R
  receiver : Channel
  tag : TagParser
  is_global : Bool

/-- Embedding of `builder::new()`: fresh transport, `TreeSender` as the
producer-side processor, a pretty-printer to stdout as the consumer-side
processor, no tag, global activation on. -/
def new : LayerBuilder TreeSender (Process Printer) :=
  { sender_processor := TreeSender.mk
    receiver_processor := Process.mk (Printer.new Formatter.pretty MakeWriter.stdout)
    receiver := Channel.new
    tag := TagParser.noTagFromField
    is_global := true }

/-- Embedding of `builder::capture()`: fresh transport, `TreeSender` as
the producer-side processor, no consumer-side processor, no tag, global
activation off. -/
def capture : LayerBuilder TreeSender Capture :=
  { sender_processor := TreeSender.mk
    receiver_processor := Capture.mk ()
    receiver := Channel.new
    tag := TagParser.noTagFromField
    is_global := false }

/-- A concrete tree used in concrete runs. -/
def t0 : Tree := ⟨0⟩

/-- A second concrete tree. -/
def t1 : Tree := ⟨1⟩

/-- A third concrete tree. -/
def t2 : Tree := ⟨2⟩

/-- A concrete consumer-side processing function that always succeeds. -/
def procOk : Tree → Except ProcessReport Unit := fun _ => Except.ok ()

/-- A concrete consumer-side processing function that fails on `t0`
with a tree-bearing report and succeeds elsewhere. -/
def procFail : Tree → Except ProcessReport Unit := fun t =>
  if t.id = 0 then Except.error (ProcessReport.new (some t) Cause.ioError)
  else Except.ok ()

/-- A concrete always-succeeding `Processor` instance. -/
def alwaysOk : FnProcessor := ⟨fun _ => Except.ok ()⟩

/-- A concrete `Processor` instance that always fails with a report
carrying the tree back. -/
def alwaysFailWithTree : FnProcessor :=
  ⟨fun t => Except.error (ProcessReport.new (some t) Cause.ioError)⟩

/-- A concrete pipeline state in which the shutdown signal has been
sent but the consumer has not yet observed it, so the receiver is
still open. -/
def sAfterShutdown : PState := ⟨Phase.running, [], false, true, [], []⟩

theorem withFallback_process_eq {P F : Type} [Processor P] [Processor F]
    (p : P) (f : F) (t : Tree) :
    Processor.process (Processor.with_fallback p f) t =
      orElseWith (Processor.process p t) (fun err => err.try_fallback f) := rfl

/-- Claim C2: for every primary `P`, fallback `F` and tree `t`, the
composite `P.with_fallback(F)` first runs the primary; on success the
result is success (for every fallback, so the fallback is never
consulted); on failure with a tree-bearing report the fallback
processes that tree and its outcome is returned; on failure with a
treeless report the report is propagated unchanged and the fallback is
not invoked. -/
theorem with_fallback_spec {P F : Type} [Processor P] [Processor F]
    (p : P) (f : F) (t : Tree) :
    (Processor.process p t = Except.ok () →
      Processor.process (Processor.with_fallback p f) t = Except.ok ()) ∧
    (∀ err tr, Processor.process p t = Except.error err → err.tree = some tr →
      Processor.process (Processor.with_fallback p f) t = Processor.process f tr) ∧
    (∀ err, Processor.process p t = Except.error err → err.tree = none →
      Processor.process (Processor.with_fallback p f) t = Except.error err) := by
  refine ⟨?_, ?_, ?_⟩
  · intro h
    rw [withFallback_process_eq, h]
    rfl
  · intro err tr h htr
    rw [withFallback_process_eq, h]
    show err.try_fallback f = Processor.process f tr
    unfold ProcessReport.try_fallback
    rw [htr]
  · intro err h htr
    rw [withFallback_process_eq, h]
    show err.try_fallback f = Except.error err
    unfold ProcessReport.try_fallback
    rw [htr]

/-- Witness for C2: a concrete succeeding primary makes the composite
succeed, and a concrete failing primary hands the tree to the `Sink`
fallback, whose outcome is returned. -/
theorem with_fallback_spec_witness :
    Processor.process (Processor.with_fallback alwaysOk Sink.mk) t0 = Except.ok () ∧
    Processor.process (Processor.with_fallback alwaysFailWithTree Sink.mk) t0 =
      Processor.process Sink.mk t0 :=
  ⟨(with_fallback_spec alwaysOk Sink.mk t0).1 rfl,
   (with_fallback_spec alwaysFailWithTree Sink.mk t0).2.1
     (ProcessReport.new (some t0) Cause.ioError) t0 rfl rfl⟩

/-- Claim C6: the discard processor `Sink` returns success on every
tree, including degenerate ones; it can never fail. -/
theorem sink_always_succeeds (t : Tree) :
    Processor.process Sink.mk t = Except.ok () := rfl

/-- Claim C10: processing through `Box(p)` or `Arc(p)` returns exactly
the result of `p.process(t)`: wrapping changes no processing
behaviour. -/
theorem box_arc_process_transparent {P : Type} [Processor P] (p : P) (t : Tree) :
    Processor.process (Box.mk p) t = Processor.process p t ∧
    Processor.process (Arc.mk p) t = Processor.process p t :=
  ⟨rfl, rfl⟩

/-- Claim C4: processing a tree through the transport's sending half
succeeds (and enqueues) exactly when the receiving half is open, and
when the receiving half has been closed it returns a failure report
carrying the tree back. -/
theorem unbounded_sender_process_spec (ch : Channel) (t : Tree) :
    (ch.closed = false → UnboundedSender.process ch t =
      ({ ch with buffer := ch.buffer ++ [t] }, Except.ok ())) ∧
    (ch.closed = true → UnboundedSender.process ch t =
      (ch, Except.error (ProcessReport.new (some t) Cause.sendError))) := by
  constructor <;> intro h <;>
    simp [UnboundedSender.process, Channel.send, h]

/-- Witness for C4: sending into a fresh (open) channel succeeds and
appends; sending into a closed channel returns a report carrying the
tree. -/
theorem unbounded_sender_process_spec_witness :
    UnboundedSender.process Channel.new t0 = (⟨[t0], false⟩, Except.ok ()) ∧
    UnboundedSender.process ⟨[], true⟩ t0 =
      (⟨[], true⟩, Except.error (ProcessReport.new (some t0) Cause.sendError)) :=
  ⟨(unbounded_sender_process_spec Channel.new t0).1 rfl,
   (unbounded_sender_process_spec ⟨[], true⟩ t0).2 rfl⟩

/-- Claim C7: `new()` returns a builder whose producer-side processor
is the transport's sending half, whose consumer-side processor is a
pretty-printer to stdout, with no tag and global activation on;
`capture()` returns the same producer-side and tag defaults, a
`Capture` marker in place of a consumer-side processor, and global
activation off. -/
theorem builder_defaults :
    new.is_global = true ∧
    new.tag = TagParser.noTagFromField ∧
    new.receiver_processor = Process.mk (Printer.new Formatter.pretty MakeWriter.stdout) ∧
    (∀ ch t, TreeSender.process new.sender_processor ch t = UnboundedSender.process ch t) ∧
    capture.is_global = false ∧
    capture.tag = TagParser.noTagFromField ∧
    capture.receiver_processor = Capture.mk () ∧
    (∀ ch t, TreeSender.process capture.sender_processor ch t = UnboundedSender.process ch t) :=
  ⟨rfl, rfl, rfl, fun _ _ => rfl, rfl, rfl, rfl, fun _ _ => rfl⟩

/-- Claim C8: with global activation requested while a global default
subscriber is already set, both entry points fail fatally at setup
time: the run aborts with the setup panic and no tree is produced or
processed. -/
theorem global_twice_fails_at_setup (proc : Tree → Except ProcessReport Unit)
    (produced : List Tree) :
    subscriberSetup true true = Except.error SetupPanic.globalDefaultAlreadySet ∧
    processModeOn proc true true produced =
      Except.error SetupPanic.globalDefaultAlreadySet ∧
    captureModeOn true true produced =
      Except.error SetupPanic.globalDefaultAlreadySet :=
  ⟨rfl, rfl, rfl⟩

theorem sendAll_open (ts : List Tree) : ∀ ch : Channel, ch.closed = false →
    Channel.sendAll ch ts = ⟨ch.buffer ++ ts, false⟩ := by
  induction ts with
  | nil =>
    intro ch h
    cases ch
    subst h
    simp [Channel.sendAll]
  | cons t rest ih =>
    intro ch h
    rw [Channel.sendAll, Channel.send, h]
    simp only [Bool.false_eq_true, if_false]
    rw [ih _ rfl]
    simp

theorem drainLoop_id : ∀ l : List Tree, drainLoop l = l := by
  intro l
  induction l with
  | nil => rfl
  | cons t rest ih => rw [drainLoop, ih]

/-- Claim C3: a Capture-mode run over a scope producing `T1..Tn` (one
producer, in that order) returns exactly `[T1..Tn]` in production
order, with no omissions and no duplicates; the Capture-mode entry
point involves no `Processor` (its collection loop `captureCollect`
takes none). -/
theorem capture_on_returns_produced (isGlobal alreadySet : Bool)
    (produced : List Tree)
    (hsetup : subscriberSetup isGlobal alreadySet = Except.ok ()) :
    captureModeOn isGlobal alreadySet produced = Except.ok produced := by
  unfold captureModeOn
  rw [hsetup]
  unfold captureCollect Channel.drain Channel.close
  rw [sendAll_open produced Channel.new rfl]
  simp [drainLoop_id, Channel.new]

/-- Witness for C3: capturing a scope that produces two trees returns
exactly those two trees in order (with the mode's default scoped
activation, even though a global default is already set elsewhere). -/
theorem capture_on_returns_produced_witness :
    captureModeOn false true [t0, t1] = Except.ok [t0, t1] :=
  capture_on_returns_produced false true [t0, t1] rfl

theorem consumeLoop_trees (proc : Tree → Except ProcessReport Unit) :
    ∀ l : List Tree, (consumeLoop proc l).1.map Prod.fst = l := by
  intro l
  induction l with
  | nil => rfl
  | cons t rest ih =>
    rw [consumeLoop]
    simp only [List.map_cons]
    rw [ih]

theorem consumeLoop_entry_mem (proc : Tree → Except ProcessReport Unit) :
    ∀ l : List Tree, ∀ t ∈ l, (t, proc t) ∈ (consumeLoop proc l).1 := by
  intro l
  induction l with
  | nil => intro t h; cases h
  | cons hd rest ih =>
    intro t h
    rcases List.mem_cons.mp h with heq | hmem
    · subst heq
      rw [consumeLoop]
      exact List.mem_cons_self _ _
    · rw [consumeLoop]
      exact List.mem_cons_of_mem _ (ih t hmem)

theorem consumeLoop_hook_mem (proc : Tree → Except ProcessReport Unit) :
    ∀ (l : List Tree) (t : Tree) (e : ProcessReport),
      t ∈ l → proc t = Except.error e → e ∈ (consumeLoop proc l).2 := by
  intro l
  induction l with
  | nil => intro t e h; cases h
  | cons hd rest ih =>
    intro t e hmem hbad
    rcases List.mem_cons.mp hmem with heq | hmem2
    · subst heq
      rw [consumeLoop]
      simp [hbad]
    · rw [consumeLoop]
      exact List.mem_append_right _ (ih t e hmem2 hbad)

/-- Claim C5: in Process mode a failure of the consumer-side processor
on one tree never terminates the consumer loop: the run over
`pre ++ bad :: post` still feeds every tree (in order) to the
processor, the failure is reported to the failure hook for `bad`, and
every subsequent tree of `post` is still processed. -/
theorem processing_failure_isolated (proc : Tree → Except ProcessReport Unit)
    (pre post : List Tree) (bad : Tree) (e : ProcessReport)
    (hbad : proc bad = Except.error e) :
    (consumeLoop proc (pre ++ bad :: post)).1.map Prod.fst = pre ++ bad :: post ∧
    e ∈ (consumeLoop proc (pre ++ bad :: post)).2 ∧
    ∀ t ∈ post, (t, proc t) ∈ (consumeLoop proc (pre ++ bad :: post)).1 := by
  refine ⟨consumeLoop_trees proc _, ?_, ?_⟩
  · exact consumeLoop_hook_mem proc _ bad e (by simp) hbad
  · intro t ht
    exact consumeLoop_entry_mem proc _ t (by simp [ht])

/-- Witness for C5: with a processor failing exactly on `t0`, the run
over `[t1] ++ t0 :: [t2]` processes all three trees, reports `t0`'s
failure to the hook, and still processes `t2`. -/
theorem processing_failure_isolated_witness :
    (consumeLoop procFail ([t1] ++ t0 :: [t2])).1.map Prod.fst = [t1] ++ t0 :: [t2] ∧
    ProcessReport.new (some t0) Cause.ioError ∈ (consumeLoop procFail ([t1] ++ t0 :: [t2])).2 ∧
    ∀ t ∈ [t2], (t, procFail t) ∈ (consumeLoop procFail ([t1] ++ t0 :: [t2])).1 :=
  processing_failure_isolated procFail [t1] [t2] t0
    (ProcessReport.new (some t0) Cause.ioError) rfl

/-- The pipeline invariant: the successfully-sent trees are exactly
the processed ones followed by the buffered ones (FIFO); every logged
outcome is the processor's outcome on that tree; the receiver is
closed only after the shutdown signal was sent; once the select loop
has been left the receiver is closed; and the task exits only with an
empty buffer. -/
def Inv (proc : Tree → Except ProcessReport Unit) (s : PState) : Prop :=
  s.sentOk = s.log.map Prod.fst ++ s.buffer ∧
  (∀ e ∈ s.log, e.2 = proc e.1) ∧
  (s.closed = true → s.shutdownSent = true) ∧
  (s.phase ≠ Phase.running → s.closed = true) ∧
  (s.phase = Phase.done → s.buffer = [])

theorem inv_init (proc : Tree → Except ProcessReport Unit) : Inv proc PState.init := by
  refine ⟨rfl, ?_, ?_, ?_, ?_⟩ <;> simp [PState.init]

theorem inv_step {proc : Tree → Except ProcessReport Unit} {s s' : PState}
    (h : Inv proc s) (hs : Step proc s s') : Inv proc s' := by
  obtain ⟨h1, h2, h3, h4, h5⟩ := h
  cases hs with
  | enqueue t hc =>
    refine ⟨?_, h2, h3, h4, ?_⟩
    · simp [PState.enqueue, h1]
    · intro hd
      have hd' : s.phase = Phase.done := hd
      have hcl : s.closed = true := h4 (by rw [hd']; decide)
      rw [hc] at hcl
      cases hcl
  | sendShutdown hns =>
    exact ⟨h1, h2, fun _ => rfl, h4, h5⟩
  | recvTree t rest hph hb =>
    refine ⟨?_, ?_, h3, h4, ?_⟩
    · simp only [PState.enqueue]
      rw [h1, hb]
      simp
    · intro e he
      rcases List.mem_append.mp he with hmem | hmem
      · exact h2 e hmem
      · simp at hmem
        subst hmem
        rfl
    · intro hd
      have hd' : s.phase = Phase.done := hd
      rw [hph] at hd'
      cases hd'
  | recvShutdown hph hss =>
    refine ⟨h1, h2, fun _ => hss, fun _ => rfl, ?_⟩
    · intro hd
      have hd' : Phase.draining = Phase.done := hd
      cases hd'
  | drainTree t rest hph hb =>
    refine ⟨?_, ?_, h3, h4, ?_⟩
    · rw [h1, hb]
      simp
    · intro e he
      rcases List.mem_append.mp he with hmem | hmem
      · exact h2 e hmem
      · simp at hmem
        subst hmem
        rfl
    · intro hd
      have hd' : s.phase = Phase.done := hd
      rw [hph] at hd'
      cases hd'
  | finish hph hb =>
    refine ⟨h1, h2, h3, ?_, fun _ => hb⟩
    · intro _
      exact h4 (by rw [hph]; decide)

theorem inv_reflTransGen {proc : Tree → Except ProcessReport Unit} {a s : PState}
    (ha : Inv proc a) (h : Relation.ReflTransGen (Step proc) a s) : Inv proc s := by
  induction h with
  | refl => exact ha
  | tail _ hstep ih => exact inv_step ih hstep

theorem inv_reaches {proc : Tree → Except ProcessReport Unit} {s : PState}
    (h : Reaches proc PState.init s) : Inv proc s :=
  inv_reflTransGen (inv_init proc) h

theorem sentOk_step_mem {proc : Tree → Except ProcessReport Unit} {s s' : PState}
    (hs : Step proc s s') : ∀ x ∈ s.sentOk, x ∈ s'.sentOk := by
  cases hs with
  | enqueue t hc => exact fun x hx => List.mem_append_left _ hx
  | sendShutdown hns => exact fun x hx => hx
  | recvTree t rest hph hb => exact fun x hx => hx
  | recvShutdown hph hss => exact fun x hx => hx
  | drainTree t rest hph hb => exact fun x hx => hx
  | finish hph hb => exact fun x hx => hx

theorem sentOk_reaches_mem {proc : Tree → Except ProcessReport Unit} {a s : PState}
    (h : Relation.ReflTransGen (Step proc) a s) : ∀ x ∈ a.sentOk, x ∈ s.sentOk := by
  induction h with
  | refl => exact fun x hx => hx
  | tail _ hstep ih => exact fun x hx => sentOk_step_mem hstep x (ih x hx)

/-- Claim C1: in Process mode, in every execution of the pipeline that
reaches task exit (the state in which `on` returns to its caller), the
consumer-side processor has been fed exactly the trees enqueued into
the transport, in order, each yielding its success-or-report outcome —
no enqueued tree is silently dropped; moreover, before the shutdown
signal is sent the receiver is never closed, so every enqueue before
shutdown succeeds into the transport. -/
theorem process_mode_no_loss (proc : Tree → Except ProcessReport Unit) :
    (∀ s : PState, Reaches proc PState.init s → s.phase = Phase.done →
      s.log.map Prod.fst = s.sentOk ∧ ∀ e ∈ s.log, e.2 = proc e.1) ∧
    (∀ s : PState, Reaches proc PState.init s → s.shutdownSent = false →
      s.closed = false) := by
  constructor
  · intro s hr hdone
    obtain ⟨h1, h2, _, _, h5⟩ := inv_reaches hr
    refine ⟨?_, h2⟩
    rw [h1, h5 hdone, List.append_nil]
  · intro s hr hns
    obtain ⟨_, _, h3, _, _⟩ := inv_reaches hr
    cases hc : s.closed
    · rfl
    · rw [h3 hc] at hns
      cases hns

theorem reaches_demo1 :
    Reaches procOk PState.init
      ⟨Phase.done, [], true, true, [(t0, Except.ok ())], [t0]⟩ := by
  have h1 : Reaches procOk PState.init ⟨Phase.running, [t0], false, false, [], [t0]⟩ :=
    Relation.ReflTransGen.single (Step.enqueue PState.init t0 rfl)
  have h2 : Reaches procOk PState.init ⟨Phase.running, [t0], false, true, [], [t0]⟩ :=
    h1.tail (Step.sendShutdown _ rfl)
  have h3 : Reaches procOk PState.init ⟨Phase.draining, [t0], true, true, [], [t0]⟩ :=
    h2.tail (Step.recvShutdown _ rfl rfl)
  have h4 : Reaches procOk PState.init
      ⟨Phase.draining, [], true, true, [(t0, Except.ok ())], [t0]⟩ :=
    h3.tail (Step.drainTree _ t0 [] rfl rfl)
  exact h4.tail (Step.finish _ rfl rfl)

/-- Witness for C1: a concrete run that enqueues `t0` before shutdown
and reaches task exit has processed exactly `[t0]`, with the
processor's outcome. -/
theorem process_mode_no_loss_witness :
    [(t0, (Except.ok () : Except ProcessReport Unit))].map Prod.fst = [t0] ∧
    ∀ e ∈ [(t0, (Except.ok () : Except ProcessReport Unit))], e.2 = procOk e.1 :=
  (process_mode_no_loss procOk).1
    ⟨Phase.done, [], true, true, [(t0, Except.ok ())], [t0]⟩ reaches_demo1 rfl

/-- Claim C9: every tree whose enqueue into the transport succeeded is
processed before `on` returns — including a tree enqueued after the
shutdown signal was sent but before the receiver was closed (the
enqueue step is enabled whenever the receiver is open, regardless of
the shutdown flag, and it lands in the log of every terminal state);
and the consumer closes the receiver only upon receiving the shutdown
signal. -/
theorem successful_send_never_dropped (proc : Tree → Except ProcessReport Unit) :
    (∀ (s sEnd : PState) (t : Tree), Reaches proc PState.init s → s.closed = false →
      Reaches proc (s.enqueue t) sEnd → sEnd.phase = Phase.done →
      Step proc s (s.enqueue t) ∧ t ∈ sEnd.log.map Prod.fst) ∧
    (∀ s : PState, Reaches proc PState.init s → s.closed = true →
      s.shutdownSent = true) := by
  constructor
  · intro s sEnd t hreach hopen hafter hdone
    have hstep : Step proc s (s.enqueue t) := Step.enqueue s t hopen
    have hreach2 : Reaches proc PState.init sEnd :=
      Relation.ReflTransGen.trans (hreach.tail hstep) hafter
    obtain ⟨h1, _, _, _, h5⟩ := inv_reaches hreach2
    have hmem : t ∈ (s.enqueue t).sentOk :=
      List.mem_append_right _ (List.mem_singleton.mpr rfl)
    have hmem2 : t ∈ sEnd.sentOk := sentOk_reaches_mem hafter t hmem
    rw [h1, h5 hdone, List.append_nil] at hmem2
    exact ⟨hstep, hmem2⟩
  · intro s hr hc
    exact (inv_reaches hr).2.2.1 hc

theorem reaches_demo2 :
    Reaches procOk (sAfterShutdown.enqueue t1)
      ⟨Phase.done, [], true, true, [(t1, Except.ok ())], [t1]⟩ := by
  have h1 : Reaches procOk (sAfterShutdown.enqueue t1)
      ⟨Phase.draining, [t1], true, true, [], [t1]⟩ :=
    Relation.ReflTransGen.single (Step.recvShutdown _ rfl rfl)
  have h2 : Reaches procOk (sAfterShutdown.enqueue t1)
      ⟨Phase.draining, [], true, true, [(t1, Except.ok ())], [t1]⟩ :=
    h1.tail (Step.drainTree _ t1 [] rfl rfl)
  exact h2.tail (Step.finish _ rfl rfl)

/-- Witness for C9: from a reachable state in which the shutdown signal
has been sent but the receiver is still open, enqueueing `t1` is a
legal step and `t1` appears in the processed log of a concrete
terminal state. -/
theorem successful_send_never_dropped_witness :
    Step procOk sAfterShutdown (sAfterShutdown.enqueue t1) ∧
    t1 ∈ ([(t1, (Except.ok () : Except ProcessReport Unit))].map Prod.fst) :=
  (successful_send_never_dropped procOk).1 sAfterShutdown
    ⟨Phase.done, [], true, true, [(t1, Except.ok ())], [t1]⟩ t1
    (Relation.ReflTransGen.single (Step.sendShutdown PState.init rfl))
    rfl reaches_demo2 rfl

end TracingForest
